import Mathlib

/-!
Shallow embedding of the MDR pricing-table extraction pipeline (`src/app.py`)
and verification of the frozen claims about it.

Modelling conventions:
* Python strings are Lean `String`s; Python `in` (substring) is `contem`.
* Python numbers flowing through the pipeline are decimal values parsed from
  OCR text or human edits; they are modelled as exact rationals `ℚ`.
  `round(x, 4)` and `f"{x:.4f}"` are modelled as exact round-half-to-even at
  4 decimal places (for the ≤4-decimal values produced by the pipeline the
  binary-float and exact-decimal behaviours coincide).
* `pandas.DataFrame.sort_values` with a list of by-columns performs a stable
  lexicographic sort (`numpy.lexsort`); it is modelled by the stable
  `List.insertionSort` over the same key.
* `Python str.lower()/str.upper()` are modelled on the alphabet actually
  reaching them here: ASCII plus the accented Latin letters used by the app.
-/

/-- Lowercase mapping for one character, modelling Python `str.lower()` on the
ASCII range plus the accented Latin capitals that can occur in the app's
Portuguese inputs. Other characters are unchanged. -/
def pyLowerChar (c : Char) : Char :=
  if 'A' ≤ c ∧ c ≤ 'Z' then Char.ofNat (c.toNat + 32)
  else if c = 'Á' then 'á' else if c = 'À' then 'à' else if c = 'Â' then 'â'
  else if c = 'Ã' then 'ã' else if c = 'É' then 'é' else if c = 'Ê' then 'ê'
  else if c = 'Í' then 'í' else if c = 'Ó' then 'ó' else if c = 'Ô' then 'ô'
  else if c = 'Õ' then 'õ' else if c = 'Ú' then 'ú' else if c = 'Ç' then 'ç'
  else c

/-- Uppercase mapping for one character, modelling Python `str.upper()`
likewise. -/
def pyUpperChar (c : Char) : Char :=
  if 'a' ≤ c ∧ c ≤ 'z' then Char.ofNat (c.toNat - 32)
  else if c = 'á' then 'Á' else if c = 'à' then 'À' else if c = 'â' then 'Â'
  else if c = 'ã' then 'Ã' else if c = 'é' then 'É' else if c = 'ê' then 'Ê'
  else if c = 'í' then 'Í' else if c = 'ó' then 'Ó' else if c = 'ô' then 'Ô'
  else if c = 'õ' then 'Õ' else if c = 'ú' then 'Ú' else if c = 'ç' then 'Ç'
  else c

/-- Python `s.lower()`. -/
def pyLower (s : String) : String := String.mk (s.toList.map pyLowerChar)

/-- Python `s.upper()`. -/
def pyUpper (s : String) : String := String.mk (s.toList.map pyUpperChar)

/-- `comecaCom pat l`: `pat` is a leading segment of `l`. -/
def comecaCom : List Char → List Char → Bool
  | [], _ => true
  | _ :: _, [] => false
  | a :: as, b :: bs => a = b && comecaCom as bs

/-- `contemLista pat l`: `pat` occurs contiguously inside `l`. -/
def contemLista (pat : List Char) : List Char → Bool
  | [] => comecaCom pat []
  | c :: cs => comecaCom pat (c :: cs) || contemLista pat cs

/-- Python's substring test `pat in s`. -/
def contem (pat s : String) : Bool := contemLista pat.toList s.toList

/-- Split a character list into its maximal leading run of decimal digits and
the rest. -/
def levaDigitos : List Char → List Char × List Char
  | [] => ([], [])
  | c :: cs =>
    if c.isDigit then
      let p := levaDigitos cs
      (c :: p.1, p.2)
    else ([], c :: cs)

/-- Split a character list into its maximal leading run of whitespace (the
regex class matched by Python's special sequence backslash-s) and the rest. -/
def levaEspacos : List Char → List Char × List Char
  | [] => ([], [])
  | c :: cs =>
    if c.isWhitespace then
      let p := levaEspacos cs
      (c :: p.1, p.2)
    else ([], c :: cs)

theorem levaDigitos_resto_le : ∀ cs : List Char, (levaDigitos cs).2.length ≤ cs.length := by
  intro cs
  induction cs with
  | nil => simp [levaDigitos]
  | cons c cs ih =>
    simp only [levaDigitos]
    split
    · simpa using Nat.le_succ_of_le ih
    · simp

/-- Numeric value of a digit run. -/
def valorDigitos (ds : List Char) : ℕ :=
  ds.foldl (fun a c => 10 * a + (c.toNat - 48)) 0

/-- The fragment of Python `float(s)` exercised by the app: optional
surrounding whitespace, an optional sign, then either `digits`,
`digits . digits`, `digits .` or `. digits`. (Exponents and the special
values never arise from the app's inputs and are not modelled.) Returns
`none` where `float` would raise `ValueError`. -/
def parseNaoAssinado (cs : List Char) : Option ℚ :=
  match (levaDigitos cs).2 with
  | [] => if (levaDigitos cs).1.isEmpty then none else some (valorDigitos (levaDigitos cs).1)
  | c :: r2 =>
    if c = '.' then
      if ¬ (levaDigitos r2).2.isEmpty then none
      else if (levaDigitos cs).1.isEmpty ∧ (levaDigitos r2).1.isEmpty then none
      else some ((valorDigitos (levaDigitos cs).1 : ℚ) +
        (valorDigitos (levaDigitos r2).1 : ℚ) / ((10 : ℚ) ^ (levaDigitos r2).1.length))
    else none

/-- Strip leading and trailing whitespace from a character list (the
whitespace stripping `float` applies to its argument). -/
def tiraEspacosBordas (cs : List Char) : List Char :=
  ((cs.dropWhile Char.isWhitespace).reverse.dropWhile Char.isWhitespace).reverse

/-- Python `float(s)` on the strings the app feeds it (see
`parseNaoAssinado`). -/
def parseDecimal (s : String) : Option ℚ :=
  match tiraEspacosBordas s.toList with
  | '+' :: r => parseNaoAssinado r
  | '-' :: r => (parseNaoAssinado r).map (fun q => -q)
  | r => parseNaoAssinado r

/-- Round-half-to-even to an integer, the rounding applied by Python's
`round` and `format` on the exact decimal values arising here. -/
def arredondaMeioPar (q : ℚ) : ℤ :=
  let n := ⌊q⌋
  if q - n < 1/2 then n
  else if (1 : ℚ)/2 < q - n then n + 1
  else if n % 2 = 0 then n else n + 1

/-- Python `round(x, 4)` on the exact values arising here. -/
def round4 (q : ℚ) : ℚ := (arredondaMeioPar (q * 10000) : ℚ) / 10000

/-- Zero-padded 4-digit decimal rendering of `k < 10000`. -/
def digitos4 (k : ℕ) : String :=
  let s := toString k
  String.mk (List.replicate (4 - s.length) '0') ++ s

/-- Python `f"{x:.4f}"` on the exact values arising here. -/
def fmt4 (q : ℚ) : String :=
  let n := arredondaMeioPar (q * 10000)
  let m := n.natAbs
  (if n < 0 then "-" else "") ++ toString (m / 10000) ++ "." ++ digitos4 (m % 10000)

/-!  ## SHA-256 (`hashlib.sha256`), over natural numbers with explicit
wrap-around at `2^32`.  -/

/-- Truncate to a 32-bit word. -/
def w32 (n : ℕ) : ℕ := n % 4294967296

/-- Right rotation of a 32-bit word. -/
def rotr (k n : ℕ) : ℕ := w32 ((n >>> k) ||| (n <<< (32 - k)))

def sigmaMaior0 (x : ℕ) : ℕ := rotr 2 x ^^^ rotr 13 x ^^^ rotr 22 x

def sigmaMaior1 (x : ℕ) : ℕ := rotr 6 x ^^^ rotr 11 x ^^^ rotr 25 x

def sigmaMenor0 (x : ℕ) : ℕ := rotr 7 x ^^^ rotr 18 x ^^^ (x >>> 3)

def sigmaMenor1 (x : ℕ) : ℕ := rotr 17 x ^^^ rotr 19 x ^^^ (x >>> 10)

def escolhe (x y z : ℕ) : ℕ := (x &&& y) ^^^ ((x ^^^ 4294967295) &&& z)

def maioria (x y z : ℕ) : ℕ := (x &&& y) ^^^ (x &&& z) ^^^ (y &&& z)

/-- The 64 SHA-256 round constants (FIPS 180-4, written in decimal). -/
def listaK : List ℕ :=
  [1116352408, 1899447441, 3049323471, 3921009573, 961987163,
   1508970993, 2453635748, 2870763221, 3624381080, 310598401,
   607225278, 1426881987, 1925078388, 2162078206, 2614888103,
   3248222580, 3835390401, 4022224774, 264347078, 604807628,
   770255983, 1249150122, 1555081692, 1996064986, 2554220882,
   2821834349, 2952996808, 3210313671, 3336571891, 3584528711,
   113926993, 338241895, 666307205, 773529912, 1294757372,
   1396182291, 1695183700, 1986661051, 2177026350, 2456956037,
   2730485921, 2820302411, 3259730800, 3345764771, 3516065817,
   3600352804, 4094571909, 275423344, 430227734, 506948616,
   659060556, 883997877, 958139571, 1322822218, 1537002063,
   1747873779, 1955562222, 2024104815, 2227730452, 2361852424,
   2428436474, 2756734187, 3204031479, 3329325298]

/-- The running hash: eight 32-bit words. -/
structure Oito where
  a : ℕ
  b : ℕ
  c : ℕ
  d : ℕ
  e : ℕ
  f : ℕ
  g : ℕ
  h : ℕ
  deriving DecidableEq

/-- SHA-256 initial hash value. -/
def hInicial : Oito where
  a := 1779033703
  b := 3144134277
  c := 1013904242
  d := 2773480762
  e := 1359893119
  f := 2600822924
  g := 528734635
  h := 1541459225

/-- Extend the 16 message words of a block to the 64-word schedule. -/
def agenda (ws : List ℕ) : List ℕ :=
  (List.range 48).foldl
    (fun w i =>
      w ++ [w32 (sigmaMenor1 (w.getD (i + 14) 0) + w.getD (i + 9) 0 + sigmaMenor0 (w.getD (i + 1) 0) + w.getD i 0)])
    ws

/-- One compression round. -/
def rodada (st : Oito) (ki wi : ℕ) : Oito :=
  let t1 := w32 (st.h + sigmaMaior1 st.e + escolhe st.e st.f st.g + ki + wi)
  let t2 := w32 (sigmaMaior0 st.a + maioria st.a st.b st.c)
  ⟨w32 (t1 + t2), st.a, st.b, st.c, w32 (st.d + t1), st.e, st.f, st.g⟩

/-- The 16 big-endian words of a 64-byte block. -/
def palavras16 (bloco : List ℕ) : List ℕ :=
  (List.range 16).map (fun j =>
    (bloco.getD (4 * j) 0 <<< 24) ||| (bloco.getD (4 * j + 1) 0 <<< 16) |||
      (bloco.getD (4 * j + 2) 0 <<< 8) ||| bloco.getD (4 * j + 3) 0)

/-- Compress one 64-byte block into the running hash. -/
def comprime (st : Oito) (bloco : List ℕ) : Oito :=
  let w := agenda (palavras16 bloco)
  let fin := (List.range 64).foldl (fun s i => rodada s (listaK.getD i 0) (w.getD i 0)) st
  ⟨w32 (st.a + fin.a), w32 (st.b + fin.b), w32 (st.c + fin.c), w32 (st.d + fin.d),
   w32 (st.e + fin.e), w32 (st.f + fin.f), w32 (st.g + fin.g), w32 (st.h + fin.h)⟩

/-- UTF-8 encoding of one code point. -/
def utf8Char (n : ℕ) : List ℕ :=
  if n < 0x80 then [n]
  else if n < 0x800 then [0xC0 ||| (n >>> 6), 0x80 ||| (n % 64)]
  else if n < 0x10000 then
    [0xE0 ||| (n >>> 12), 0x80 ||| ((n >>> 6) % 64), 0x80 ||| (n % 64)]
  else [0xF0 ||| (n >>> 18), 0x80 ||| ((n >>> 12) % 64), 0x80 ||| ((n >>> 6) % 64), 0x80 ||| (n % 64)]

/-- UTF-8 bytes of a string (`payload.encode("utf-8")`). -/
def utf8Bytes (s : String) : List ℕ :=
  s.toList.foldr (fun c acc => utf8Char c.toNat ++ acc) []

/-- Big-endian 8-byte encoding of the bit length. -/
def bytesComprimento (n : ℕ) : List ℕ :=
  (List.range 8).map (fun i => (n >>> (8 * (7 - i))) % 256)

/-- SHA-256 message padding. -/
def preenche (msg : List ℕ) : List ℕ :=
  msg ++ 0x80 :: List.replicate ((119 - msg.length % 64) % 64) 0 ++ bytesComprimento (8 * msg.length)

/-- Chop a padded message into 64-byte blocks. -/
def blocos (l : List ℕ) : List (List ℕ) :=
  if h : l = [] then [] else l.take 64 :: blocos (l.drop 64)
termination_by l.length
decreasing_by
  simp only [List.length_drop]
  have : 0 < l.length := List.length_pos.mpr h
  omega

/-- Lowercase hexadecimal digit. -/
def hexDigito (n : ℕ) : Char :=
  if n < 10 then Char.ofNat (48 + n) else Char.ofNat (87 + n)

/-- Eight lowercase hex characters of a 32-bit word. -/
def hex8 (n : ℕ) : List Char :=
  (List.range 8).map (fun i => hexDigito ((n >>> (4 * (7 - i))) % 16))

/-- `hashlib.sha256(s.encode("utf-8")).hexdigest()`. -/
def sha256hex (s : String) : String :=
  let fin := (blocos (preenche (utf8Bytes s))).foldl comprime hInicial
  String.mk (hex8 fin.a ++ hex8 fin.b ++ hex8 fin.c ++ hex8 fin.d ++
    hex8 fin.e ++ hex8 fin.f ++ hex8 fin.g ++ hex8 fin.h)

/-! ## Embedding of the pipeline in `src/app.py` -/

/-- The fixed 5-brand reference list (`BANDEIRAS_PADRAO`). -/
def BANDEIRAS_PADRAO : List String := ["VISA", "MASTERCARD", "ELO", "AMEX", "HIPERCARD"]

/-- Python `s.replace(",", ".")`. -/
def trocaVirgula (s : String) : String :=
  String.mk (s.toList.map (fun c => if c = ',' then '.' else c))

/-- Python `s.replace(" ", "")`: removes space characters (only U+0020). -/
def removeEspacos (s : String) : String :=
  String.mk (s.toList.filter (fun c => ¬ c = ' '))

/-- The numeric tokens matched by `re.findall(r"(\d+[\.,]?\d*)\s*%?", texto)`,
in order of appearance: each is a maximal digit run, optionally followed by
one `.` or `,` and further digits. The pattern's trailing `\s*%?` consumes
only whitespace or `%` after the captured group and therefore never changes
which tokens are found. -/
def tokensNumericos : List Char → List String
  | [] => []
  | c :: resto =>
    if c.isDigit then
      match h2 : (levaDigitos resto).2 with
      | sep :: r2 =>
        if sep = '.' ∨ sep = ',' then
          String.mk (c :: (levaDigitos resto).1 ++ sep :: (levaDigitos r2).1)
            :: tokensNumericos (levaDigitos r2).2
        else String.mk (c :: (levaDigitos resto).1) :: tokensNumericos (sep :: r2)
      | [] => [String.mk (c :: (levaDigitos resto).1)]
    else tokensNumericos resto
termination_by cs => cs.length
decreasing_by
  all_goals
    first
      | (have h1 := levaDigitos_resto_le cs
         rw [h2] at h1
         have h3 := levaDigitos_resto_le r2
         simp only [List.length_cons] at h1 ⊢
         omega)
      | (simp only [List.length_cons]; omega)

/-- `_extrair_percentuais`: numeric tokens with `,` turned into `.`, kept
when they parse as floats. -/
def extrair_percentuais (texto : String) : List ℚ :=
  (tokensNumericos texto.toList).filterMap (fun valor => parseDecimal (trocaVirgula valor))

/-- One attempted match of the pattern `D\s*\+\s*\d+` (IGNORECASE) starting
at the head of the input; yields the matched characters. -/
def tentaPrazo : List Char → Option (List Char)
  | [] => none
  | c :: r0 =>
    if c = 'd' ∨ c = 'D' then
      match (levaEspacos r0).2 with
      | '+' :: r2 =>
        if ((levaDigitos (levaEspacos r2).2).1).isEmpty then none
        else some (c :: (levaEspacos r0).1 ++ '+' :: (levaEspacos r2).1 ++ (levaDigitos (levaEspacos r2).2).1)
      | _ => none
    else none

/-- Leftmost match of `D\s*\+\s*\d+` in the input (`re.search`). -/
def buscaPrazo : List Char → Option (List Char)
  | [] => none
  | c :: cs =>
    match tentaPrazo (c :: cs) with
    | some m => some m
    | none => buscaPrazo cs

/-- `_extrair_prazo`: the first settlement-term token, with spaces removed
and upper-cased, or `""` when there is none. -/
def extrair_prazo (texto : String) : String :=
  match buscaPrazo texto.toList with
  | some m => pyUpper (removeEspacos (String.mk m))
  | none => ""

/-- `_parece_modalidade`: the channel-likeness test on a line. -/
def parece_modalidade (texto : String) : Bool :=
  let texto_lower := pyLower texto
  ["debito", "débito", "credito", "crédito", "avista", "a vista", "x"].any
    (fun k => contem k texto_lower)

/-- `_detectar_header`: first candidate line containing at least 3 known
brands; the brands found are listed in the order of `BANDEIRAS_PADRAO`. -/
def detectar_header : List String → List String
  | [] => []
  | line :: resto =>
    let encontrados := BANDEIRAS_PADRAO.filter (fun b => contem (pyLower b) (pyLower line))
    if encontrados.length ≥ 3 then encontrados else detectar_header resto

/-- A table cell as it can reach the Normalizer: missing (`None`/`NaN`), a
number, or a string typed into the editable table by the human. -/
inductive Celula where
  | nan : Celula
  | num : ℚ → Celula
  | txt : String → Celula
  deriving DecidableEq

/-- One wide row of the extracted table: free-text channel label, the
settlement term, and the brand-keyed cells. -/
structure LinhaExtraida where
  modalidade : String
  prazo_recebimento : String
  celulas : List (String × Celula)
  deriving DecidableEq

/-- Assembly of one wide row from a qualifying line (app.py lines 62-70):
every extracted numeric token is placed positionally against the brand list,
the list is padded with `None` up to the number of brands, and excess tokens
are dropped by the positional zip. -/
def montarLinha (bandeiras : List String) (line : String) : LinhaExtraida :=
  let percentuais := extrair_percentuais line
  { modalidade := line
    prazo_recebimento := extrair_prazo line
    celulas := bandeiras.zip
      (percentuais.map Celula.num ++ List.replicate (bandeiras.length - percentuais.length) Celula.nan) }

/-- One step of the line-classification loop (app.py lines 46-53): a line
containing `"antecip"` (case-insensitively) is a surcharge annotation — if
it yields at least one percentage token the surcharge rate is overwritten
with the first one — otherwise the line is appended to the table-line
candidates. -/
def passoClassifica (st : Option ℚ × List String) (line : String) : Option ℚ × List String :=
  if contem "antecip" (pyLower line) then
    match extrair_percentuais line with
    | [] => st
    | t :: _ => (some t, st.2)
  else (st.1, st.2 ++ [line])

/-- The line-classification loop (app.py lines 44-53), producing the
surcharge rate and the ordered table-line candidates. -/
def classifica (lines : List String) : Option ℚ × List String :=
  lines.foldl passoClassifica (none, [])

/-- `line.strip()` filtering of the OCR text's lines (app.py line 42). -/
def prepara_linhas (texto : List String) : List String :=
  (texto.map String.trim).filter (fun l => ¬ l.isEmpty)

/-- The extraction result: the brand column order, the wide rows, and the
surcharge rate. -/
structure Extracao where
  bandeiras : List String
  linhas : List LinhaExtraida
  taxa_antecipacao : Option ℚ
  deriving DecidableEq

/-- `ler_imagem_e_extrair_tabela`, modelled from the recognized text lines
onward (image decoding and the OCR engine are the external collaborators;
the function's decision logic starts at app.py line 42 with the recognized
lines). -/
def ler_imagem_e_extrair_tabela (ocrLinhas : List String) : Extracao :=
  let lines := prepara_linhas ocrLinhas
  let cls := classifica lines
  let header_detectada := detectar_header cls.2
  let bandeiras := if header_detectada.isEmpty then BANDEIRAS_PADRAO else header_detectada
  { bandeiras := bandeiras
    linhas := (cls.2.filter parece_modalidade).map (montarLinha bandeiras)
    taxa_antecipacao := cls.1 }

/-- A normalized record (one row of the tall table built by
`normalizar_tabela`). -/
structure Registro where
  canal : String
  bandeira : String
  parcela_de : ℕ
  parcela_ate : ℕ
  mdr : ℚ
  prazo_recebimento : String
  taxa_antecipacao : Option ℚ
  deriving DecidableEq

/-- `_normalizar_modalidade`: the ordered first-match channel mapping. -/
def normalizar_modalidade (texto : String) : String :=
  let t := pyLower texto
  if contem "deb" t then "DEBITO"
  else if contem "avista" t ∨ contem "a vista" t then "CREDITO_AVISTA"
  else if contem "2" t ∧ contem "6" t then "CREDITO_2A6X"
  else if contem "7" t ∧ contem "12" t then "CREDITO_7A12X"
  else if contem "13" t ∨ contem "21" t then "CREDITO_13A21X"
  else if contem "credito" t ∨ contem "crédito" t then "CREDITO_AVISTA"
  else ""

/-- `_faixa_parcelas`: the fixed installment range of each channel. -/
def faixa_parcelas (canal : String) : ℕ × ℕ :=
  if canal = "DEBITO" then (1, 1)
  else if canal = "CREDITO_AVISTA" then (1, 1)
  else if canal = "CREDITO_2A6X" then (2, 6)
  else if canal = "CREDITO_7A12X" then (7, 12)
  else if canal = "CREDITO_13A21X" then (13, 21)
  else (1, 1)

/-- `row.get(bandeira)`: a missing brand column behaves as a missing value
(`pd.isna(None)` holds). -/
def obterCelula (row : LinhaExtraida) (b : String) : Celula :=
  match row.celulas.find? (fun kv => kv.1 = b) with
  | some kv => kv.2
  | none => Celula.nan

/-- The per-cell conversion of `normalizar_tabela` (app.py lines 144-150):
skip missing or empty cells, then `float(str(taxa).replace(",", "."))` with
`ValueError` turned into a skip. A numeric cell converts to itself. -/
def celulaParaTaxa : Celula → Option ℚ
  | Celula.nan => none
  | Celula.num q => some q
  | Celula.txt s => if s = "" then none else parseDecimal (trocaVirgula s)

/-- The records `normalizar_tabela` emits for one wide row: none when the
channel is unmapped, otherwise one record per brand of `BANDEIRAS_PADRAO`
whose cell converts to a number. -/
def registrosDaLinha (taxa_antecipacao : Option ℚ) (row : LinhaExtraida) : List Registro :=
  let canal := normalizar_modalidade row.modalidade
  if canal = "" then []
  else
    let faixa := faixa_parcelas canal
    let prazo := pyUpper (removeEspacos row.prazo_recebimento)
    BANDEIRAS_PADRAO.foldr
      (fun bandeira acc =>
        match celulaParaTaxa (obterCelula row bandeira) with
        | none => acc
        | some q =>
          { canal := canal, bandeira := bandeira, parcela_de := faixa.1, parcela_ate := faixa.2,
            mdr := round4 q, prazo_recebimento := prazo, taxa_antecipacao := taxa_antecipacao } :: acc)
      []

/-- `normalizar_tabela`. -/
def normalizar_tabela (df : List LinhaExtraida) (taxa_antecipacao : Option ℚ) : List Registro :=
  df.foldr (fun row acc => registrosDaLinha taxa_antecipacao row ++ acc) []

/-- Three-way comparison of naturals. -/
def cmpN (a b : ℕ) : Ordering :=
  if a < b then Ordering.lt else if b < a then Ordering.gt else Ordering.eq

/-- Three-way lexicographic comparison of character lists by code point,
Python's string comparison. -/
def cmpChars : List Char → List Char → Ordering
  | [], [] => Ordering.eq
  | [], _ :: _ => Ordering.lt
  | _ :: _, [] => Ordering.gt
  | a :: as, b :: bs =>
    if a.toNat < b.toNat then Ordering.lt
    else if b.toNat < a.toNat then Ordering.gt
    else cmpChars as bs

/-- Python string comparison. -/
def cmpStr (a b : String) : Ordering := cmpChars a.toList b.toList

/-- The sort key of `df.sort_values(by=["canal", "bandeira", "parcela_de",
"parcela_ate"])`, as a three-way comparison. -/
def cmpRegistro (x y : Registro) : Ordering :=
  (cmpStr x.canal y.canal).then
    ((cmpStr x.bandeira y.bandeira).then
      ((cmpN x.parcela_de y.parcela_de).then (cmpN x.parcela_ate y.parcela_ate)))

/-- Non-strict order of records under the fingerprint sort key. -/
def RLe (x y : Registro) : Prop := cmpRegistro x y ≠ Ordering.gt

instance : DecidableRel RLe :=
  fun x y => inferInstanceAs (Decidable (cmpRegistro x y ≠ Ordering.gt))

/-- Code-point order on strings (the order pandas `groupby(sort=True)` uses
for string keys). -/
def StrLe (a b : String) : Prop := cmpStr a b ≠ Ordering.gt

instance : DecidableRel StrLe :=
  fun a b => inferInstanceAs (Decidable (cmpStr a b ≠ Ordering.gt))

/-- One pipe-delimited fingerprint line (app.py lines 202-212). -/
def linhaHash (taxa_antecipacao : Option ℚ) (r : Registro) : String :=
  String.intercalate "|"
    [r.canal, r.bandeira, toString r.parcela_de, toString r.parcela_ate, fmt4 r.mdr,
     r.prazo_recebimento,
     match taxa_antecipacao with
     | none => ""
     | some t => fmt4 t]

/-- `gerar_hash_plano`: empty input gives the empty-string sentinel;
otherwise the records are stably sorted by (canal, bandeira, parcela_de,
parcela_ate) — `sort_values` with several by-columns is a stable
`numpy.lexsort`, modelled by the stable `List.insertionSort` — serialized
line by line, joined with newlines and hashed with SHA-256. -/
def gerar_hash_plano (df : List Registro) (taxa_antecipacao : Option ℚ) : String :=
  if df.isEmpty then ""
  else
    sha256hex (String.intercalate "\n" ((List.insertionSort RLe df).map (linhaHash taxa_antecipacao)))

/-- One persisted catalog row (sheet `BASE_PLANOS`). -/
structure LinhaBase where
  plan_name : String
  canal : String
  bandeira : String
  parcela_de : ℕ
  parcela_ate : ℕ
  mdr : ℚ
  prazo_recebimento : String
  taxa_antecipacao : Option ℚ
  hash_plano : String
  data_criacao : String
  deriving DecidableEq

/-- `comparar_com_base`: on a non-empty catalog, group rows by plan name
(pandas sorts the group keys), take each group's first `hash_plano`
(`dropna` never drops a row here since `hash_plano` is a string column in
this model), and return the plan names whose first hash equals the query. -/
def comparar_com_base (hash_plano : String) (base : List LinhaBase) : List String :=
  if base.isEmpty then []
  else
    (List.insertionSort StrLe (base.map (fun r => r.plan_name)).dedup).filter
      (fun nome =>
        (base.find? (fun r => r.plan_name = nome)).map (fun r => r.hash_plano) = some hash_plano)

/-- `salvar_plano_na_base`: the read-modify-write cycle, modelled on the
loaded catalog — one appended row per normalized record, all sharing the
plan name, the fingerprint and one creation timestamp (the ambient clock is
passed in as `data_criacao`). -/
def salvar_plano_na_base (base : List LinhaBase) (df_normalizado : List Registro)
    (plan_name hash_plano data_criacao : String) : List LinhaBase :=
  base ++ df_normalizado.map (fun r =>
    { plan_name := plan_name, canal := r.canal, bandeira := r.bandeira,
      parcela_de := r.parcela_de, parcela_ate := r.parcela_ate, mdr := r.mdr,
      prazo_recebimento := r.prazo_recebimento, taxa_antecipacao := r.taxa_antecipacao,
      hash_plano := hash_plano, data_criacao := data_criacao })

/-- The save-button handler (app.py lines 346-356): an empty plan name or an
empty normalized table is rejected with an error message before
`salvar_plano_na_base` is reached; otherwise the catalog is rewritten with
the appended rows. Returns the persisted catalog afterwards and the error
message, if any. -/
def trataSalvar (base : List LinhaBase) (novo_nome : String) (tabela_normalizada : List Registro)
    (hash_plano data_criacao : String) : List LinhaBase × Option String :=
  if novo_nome = "" then (base, some "Informe um nome para o plano.")
  else if tabela_normalizada.isEmpty then
    (base, some "Tabela normalizada vazia. Não há dados para salvar.")
  else (salvar_plano_na_base base tabela_normalizada novo_nome hash_plano data_criacao, none)

/-! ## Order theory for the fingerprint sort key -/

/-- A well-behaved three-way comparison: swap-symmetric, transitive in the
non-strict sense, and left-congruent on its equality classes. -/
def CmpBom {α : Type} (f : α → α → Ordering) : Prop :=
  (∀ a b, f b a = (f a b).swap) ∧
  (∀ a b c, f a b ≠ Ordering.gt → f b c ≠ Ordering.gt → f a c ≠ Ordering.gt) ∧
  (∀ a b, f a b = Ordering.eq → ∀ c, f a c = f b c)

theorem charToNat_inj {x y : Char} (h : x.toNat = y.toNat) : x = y := by
  have hx := Char.ofNat_toNat x
  rw [h, Char.ofNat_toNat] at hx
  exact hx.symm

theorem cmpN_eq_iff (a b : ℕ) : cmpN a b = Ordering.eq ↔ a = b := by
  unfold cmpN
  split_ifs <;> simp <;> omega

theorem cmpChars_eq_iff : ∀ a b : List Char, cmpChars a b = Ordering.eq ↔ a = b
  | [], [] => by simp [cmpChars]
  | [], _ :: _ => by simp [cmpChars]
  | _ :: _, [] => by simp [cmpChars]
  | x :: xs, y :: ys => by
    simp only [cmpChars]
    split_ifs with h1 h2
    · simp only [List.cons.injEq]
      constructor
      · intro h; cases h
      · rintro ⟨rfl, -⟩; omega
    · simp only [List.cons.injEq]
      constructor
      · intro h; cases h
      · rintro ⟨rfl, -⟩; omega
    · have hxy : x = y := charToNat_inj (by omega)
      subst hxy
      simp [cmpChars_eq_iff xs ys]

theorem cmpChars_swap : ∀ a b : List Char, cmpChars b a = (cmpChars a b).swap
  | [], [] => by simp [cmpChars, Ordering.swap]
  | [], _ :: _ => by simp [cmpChars, Ordering.swap]
  | _ :: _, [] => by simp [cmpChars, Ordering.swap]
  | x :: xs, y :: ys => by
    simp only [cmpChars]
    split_ifs <;>
      first
        | omega
        | exact cmpChars_swap xs ys
        | simp [Ordering.swap]

theorem cmpChars_le_trans :
    ∀ a b c : List Char, cmpChars a b ≠ Ordering.gt → cmpChars b c ≠ Ordering.gt →
      cmpChars a c ≠ Ordering.gt
  | [], b, c, _, _ => by cases c <;> simp [cmpChars]
  | x :: xs, [], c, h1, _ => by simp [cmpChars] at h1
  | x :: xs, y :: ys, [], _, h2 => by simp [cmpChars] at h2
  | x :: xs, y :: ys, z :: zs, h1, h2 => by
    simp only [cmpChars] at h1 h2 ⊢
    split_ifs at h1 h2 ⊢ <;>
      first
        | exact absurd rfl h1
        | exact absurd rfl h2
        | omega
        | exact cmpChars_le_trans xs ys zs h1 h2
        | simp

theorem cmpBom_cmpChars : CmpBom cmpChars := by
  refine ⟨cmpChars_swap, cmpChars_le_trans, ?_⟩
  intro a b hab c
  rw [(cmpChars_eq_iff a b).mp hab]

theorem cmpBom_cmpN : CmpBom cmpN := by
  refine ⟨?_, ?_, ?_⟩
  · intro a b; unfold cmpN; split_ifs <;> first | omega | simp [Ordering.swap]
  · intro a b c; unfold cmpN; split_ifs <;> first | omega | simp
  · intro a b hab c
    rw [(cmpN_eq_iff a b).mp hab]

/-- `CmpBom` is preserved by comparing through a projection. -/
theorem cmpBom_proj {α β : Type} {f : β → β → Ordering} (p : α → β) (hf : CmpBom f) :
    CmpBom (fun x y => f (p x) (p y)) := by
  obtain ⟨hs, ht, hc⟩ := hf
  exact ⟨fun a b => hs (p a) (p b), fun a b c => ht (p a) (p b) (p c),
    fun a b hab c => hc (p a) (p b) hab (p c)⟩

theorem ordering_then_swap (o1 o2 : Ordering) : (o1.then o2).swap = o1.swap.then o2.swap := by
  cases o1 <;> cases o2 <;> rfl

theorem ordering_swap_gt {o : Ordering} : o.swap = Ordering.gt ↔ o = Ordering.lt := by
  cases o <;> simp [Ordering.swap]

theorem ordering_then_eq {o1 o2 : Ordering} :
    o1.then o2 = Ordering.eq ↔ o1 = Ordering.eq ∧ o2 = Ordering.eq := by
  cases o1 <;> simp [Ordering.then]

/-- `CmpBom` is preserved by lexicographic composition. -/
theorem cmpBom_then {α : Type} {f g : α → α → Ordering} (hf : CmpBom f) (hg : CmpBom g) :
    CmpBom (fun a b => (f a b).then (g a b)) := by
  obtain ⟨hfs, hft, hfc⟩ := hf
  obtain ⟨hgs, hgt, hgc⟩ := hg
  refine ⟨?_, ?_, ?_⟩
  · intro a b
    dsimp only
    rw [hfs a b, hgs a b, ordering_then_swap]
  · intro a b c h1 h2
    dsimp only at h1 h2 ⊢
    cases hab : f a b with
    | gt => rw [hab] at h1; exact absurd rfl h1
    | eq =>
      rw [hab] at h1
      simp only [Ordering.then] at h1
      cases hbc : f b c with
      | gt => rw [hbc] at h2; exact absurd rfl h2
      | eq =>
        rw [hbc] at h2
        simp only [Ordering.then] at h2
        have hac : f a c = Ordering.eq := by rw [hfc a b hab c, hbc]
        rw [hac]
        simpa only [Ordering.then] using hgt a b c h1 h2
      | lt =>
        have hac : f a c = Ordering.lt := by rw [hfc a b hab c, hbc]
        rw [hac]
        simp [Ordering.then]
    | lt =>
      cases hbc : f b c with
      | gt => rw [hbc] at h2; exact absurd rfl h2
      | eq =>
        have hcb : f c b = Ordering.eq := by rw [hfs b c, hbc]; rfl
        have hba : f b a = Ordering.gt := by rw [hfs a b, hab]; rfl
        have hsw : (f a c).swap = Ordering.gt := by
          rw [← hfs a c, hfc c b hcb a, hba]
        have hac : f a c = Ordering.lt := ordering_swap_gt.mp hsw
        rw [hac]
        simp [Ordering.then]
      | lt =>
        have hac : f a c = Ordering.lt := by
          cases hx : f a c with
          | lt => rfl
          | eq =>
            have he := hfc a c hx b
            rw [hab] at he
            have hcb : f c b = Ordering.gt := by
              rw [hfs b c, hbc]; rfl
            rw [hcb] at he
            cases he
          | gt =>
            have := hft a b c (by rw [hab]; simp) (by rw [hbc]; simp)
            rw [hx] at this
            exact absurd rfl this
        rw [hac]
        simp [Ordering.then]
  · intro a b hab c
    dsimp only at hab ⊢
    have hcomp : f a b = Ordering.eq ∧ g a b = Ordering.eq := ordering_then_eq.mp hab
    rw [hfc a b hcomp.1 c, hgc a b hcomp.2 c]

theorem cmpBom_total {α : Type} {f : α → α → Ordering} (hf : CmpBom f) (a b : α) :
    f a b ≠ Ordering.gt ∨ f b a ≠ Ordering.gt := by
  cases h : f a b with
  | lt => exact Or.inl (by simp [h])
  | eq => exact Or.inl (by simp [h])
  | gt =>
    refine Or.inr ?_
    rw [hf.1 a b, h]
    simp [Ordering.swap]

theorem cmpBom_antisymm {α : Type} {f : α → α → Ordering} (hf : CmpBom f) {a b : α}
    (h1 : f a b ≠ Ordering.gt) (h2 : f b a ≠ Ordering.gt) : f a b = Ordering.eq := by
  cases h : f a b with
  | eq => rfl
  | gt => exact absurd h h1
  | lt =>
    rw [hf.1 a b, h] at h2
    simp [Ordering.swap] at h2

theorem cmpBom_cmpRegistro : CmpBom cmpRegistro := by
  have l4 := cmpBom_proj (fun r : Registro => r.parcela_ate) cmpBom_cmpN
  have l3 := cmpBom_proj (fun r : Registro => r.parcela_de) cmpBom_cmpN
  have l2 := cmpBom_proj (fun r : Registro => r.bandeira.toList) cmpBom_cmpChars
  have l1 := cmpBom_proj (fun r : Registro => r.canal.toList) cmpBom_cmpChars
  exact cmpBom_then l1 (cmpBom_then l2 (cmpBom_then l3 l4))

instance : IsTrans Registro RLe :=
  ⟨fun a b c => cmpBom_cmpRegistro.2.1 a b c⟩

instance : IsTotal Registro RLe :=
  ⟨fun a b => cmpBom_total cmpBom_cmpRegistro a b⟩

theorem stringToList_inj {s t : String} (h : s.toList = t.toList) : s = t := by
  cases s
  cases t
  exact congrArg String.mk (by simpa [String.toList] using h)

theorem cmpStr_eq_iff {a b : String} : cmpStr a b = Ordering.eq ↔ a = b := by
  constructor
  · intro h
    exact stringToList_inj ((cmpChars_eq_iff _ _).mp h)
  · rintro rfl
    exact (cmpChars_eq_iff _ _).mpr rfl

/-- Two records compare `eq` exactly when they agree on the whole sort key. -/
theorem cmpRegistro_eq_iff {x y : Registro} :
    cmpRegistro x y = Ordering.eq ↔
      x.canal = y.canal ∧ x.bandeira = y.bandeira ∧
        x.parcela_de = y.parcela_de ∧ x.parcela_ate = y.parcela_ate := by
  unfold cmpRegistro
  rw [ordering_then_eq, ordering_then_eq, ordering_then_eq]
  rw [cmpStr_eq_iff, cmpStr_eq_iff, cmpN_eq_iff, cmpN_eq_iff]

/-- Two `RLe`-sorted lists that are permutations of each other coincide,
provided members with equal sort keys are equal. -/
theorem sorted_perm_eq_of_inj {l₁ : List Registro} :
    ∀ {l₂ : List Registro}, l₁.Perm l₂ → l₁.Sorted RLe → l₂.Sorted RLe →
      (∀ a ∈ l₁, ∀ b ∈ l₁, cmpRegistro a b = Ordering.eq → a = b) → l₁ = l₂ := by
  induction l₁ with
  | nil =>
    intro l₂ hp _ _ _
    exact (List.Perm.eq_nil hp.symm).symm
  | cons a t₁ ih =>
    intro l₂ hp hs₁ hs₂ hinj
    cases l₂ with
    | nil => exact absurd (List.Perm.eq_nil hp) (by simp)
    | cons b t₂ =>
      by_cases hab : a = b
      · subst hab
        have ht : t₁.Perm t₂ := hp.cons_inv
        have htl := ih ht hs₁.of_cons hs₂.of_cons
          (fun x hx y hy h =>
            hinj x (List.mem_cons_of_mem _ hx) y (List.mem_cons_of_mem _ hy) h)
        rw [htl]
      · exfalso
        have hbmem : b ∈ t₁ := by
          have hb : b ∈ a :: t₁ := hp.mem_iff.mpr (List.mem_cons_self _ _)
          exact (List.mem_cons.mp hb).resolve_left (fun h => hab h.symm)
        have hamem : a ∈ t₂ := by
          have ha : a ∈ b :: t₂ := hp.subset (List.mem_cons_self a t₁)
          exact (List.mem_cons.mp ha).resolve_left hab
        have h1 : RLe a b := List.rel_of_sorted_cons hs₁ b hbmem
        have h2 : RLe b a := List.rel_of_sorted_cons hs₂ a hamem
        have heq := cmpBom_antisymm cmpBom_cmpRegistro h1 h2
        exact hab (hinj a (List.mem_cons_self a t₁) b (List.mem_cons_of_mem a hbmem) heq)

/-! ## Claim C1: fingerprint determinism under permutations -/

/-- A record with sort key (DEBITO, VISA, 1, 1) and rate 1. -/
def regChaveIgualA : Registro :=
  { canal := "DEBITO", bandeira := "VISA", parcela_de := 1, parcela_ate := 1,
    mdr := 1, prazo_recebimento := "", taxa_antecipacao := none }

/-- A record with the same sort key (DEBITO, VISA, 1, 1) but rate 2. -/
def regChaveIgualB : Registro :=
  { canal := "DEBITO", bandeira := "VISA", parcela_de := 1, parcela_ate := 1,
    mdr := 2, prazo_recebimento := "", taxa_antecipacao := none }

/-- A record whose sort key differs from `regChaveIgualA`'s. -/
def regChaveOutra : Registro :=
  { canal := "CREDITO_AVISTA", bandeira := "ELO", parcela_de := 1, parcela_ate := 1,
    mdr := 3/2, prazo_recebimento := "D+1", taxa_antecipacao := none }

set_option maxRecDepth 100000 in
/-- C1, counterexample: the two orderings of the records `regChaveIgualA`
and `regChaveIgualB` are permutations of each other, yet `gerar_hash_plano`
gives them different digests — the stable multi-key sort keeps the input
order of records that tie on (canal, bandeira, parcela_de, parcela_ate), so
the fingerprint is not a function of the record multiset alone. -/
theorem C1_contraexemplo :
    [regChaveIgualB, regChaveIgualA].Perm [regChaveIgualA, regChaveIgualB] ∧
      gerar_hash_plano [regChaveIgualA, regChaveIgualB] none ≠
        gerar_hash_plano [regChaveIgualB, regChaveIgualA] none := by
  constructor
  · exact List.Perm.swap regChaveIgualA regChaveIgualB []
  · exact of_decide_eq_true (by with_unfolding_all rfl)

/-- C1, amended: for record sequences in which records sharing the full sort
key (canal, bandeira, parcela_de, parcela_ate) are identical — in particular
whenever the keys are pairwise distinct — `gerar_hash_plano` of any
permutation yields the same digest, so there the fingerprint depends only on
the record multiset plus the surcharge rate. -/
theorem C1_hash_invariante_por_permutacao (l₁ l₂ : List Registro) (taxa : Option ℚ)
    (hinj : ∀ a ∈ l₁, ∀ b ∈ l₁, cmpRegistro a b = Ordering.eq → a = b)
    (hp : l₁.Perm l₂) :
    gerar_hash_plano l₁ taxa = gerar_hash_plano l₂ taxa := by
  have hsort : List.insertionSort RLe l₁ = List.insertionSort RLe l₂ := by
    apply sorted_perm_eq_of_inj
    · exact (List.perm_insertionSort RLe l₁).trans (hp.trans (List.perm_insertionSort RLe l₂).symm)
    · exact List.sorted_insertionSort RLe l₁
    · exact List.sorted_insertionSort RLe l₂
    · intro a ha b hb
      exact hinj a ((List.perm_insertionSort RLe l₁).mem_iff.mp ha)
        b ((List.perm_insertionSort RLe l₁).mem_iff.mp hb)
  have hiso : l₁.isEmpty = l₂.isEmpty := by
    rcases l₁ with _ | ⟨x, t⟩
    · rw [List.Perm.eq_nil hp.symm]
    · rcases l₂ with _ | ⟨y, u⟩
      · exact absurd (List.Perm.eq_nil hp) (by simp)
      · rfl
  unfold gerar_hash_plano
  rw [hiso, hsort]

set_option maxRecDepth 100000 in
/-- C1, witness: the amended theorem applied to two records with distinct
sort keys and a transposition of them. -/
theorem C1_testemunha :
    gerar_hash_plano [regChaveIgualA, regChaveOutra] none =
      gerar_hash_plano [regChaveOutra, regChaveIgualA] none :=
  C1_hash_invariante_por_permutacao [regChaveIgualA, regChaveOutra]
    [regChaveOutra, regChaveIgualA] none
    (of_decide_eq_true (by with_unfolding_all rfl))
    (List.Perm.swap regChaveOutra regChaveIgualA [])

/-! ## Claim C2: last surcharge line wins -/

/-- A line that matches the surcharge-annotation test and yields at least
one percentage token. -/
def linhaAntecip (l : String) : Bool :=
  contem "antecip" (pyLower l) && !(extrair_percentuais l).isEmpty

/-- Spec-side statement of the surcharge policy: the first percentage token
of the last line containing `"antecip"` (case-insensitively) that yields at
least one percentage token. -/
def ultimaTaxaAntecipacao (lines : List String) : Option ℚ :=
  ((lines.filter linhaAntecip).getLast?).bind (fun l => (extrair_percentuais l).head?)

theorem foldl_passoClassifica_fst :
    ∀ (lines : List String) (st : Option ℚ × List String),
      (List.foldl passoClassifica st lines).1 =
        match (lines.filter linhaAntecip).getLast? with
        | none => st.1
        | some l => (extrair_percentuais l).head? := by
  intro lines
  induction lines with
  | nil => intro st; rfl
  | cons l ls ih =>
    intro st
    simp only [List.foldl_cons, List.filter_cons]
    by_cases hP : linhaAntecip l = true
    · rw [if_pos hP, ih (passoClassifica st l)]
      rw [linhaAntecip, Bool.and_eq_true] at hP
      obtain ⟨hcont, htoks⟩ := hP
      cases htk : extrair_percentuais l with
      | nil => rw [htk] at htoks; simp at htoks
      | cons t ts =>
        have hfst : (passoClassifica st l).1 = some t := by
          unfold passoClassifica
          rw [if_pos hcont, htk]
        cases hflt : ls.filter linhaAntecip with
        | nil => simp [hfst, htk]
        | cons y ys =>
          rw [List.getLast?_cons_cons]
          cases hlast : (y :: ys).getLast? with
          | none => simp at hlast
          | some l' => rfl
    · rw [if_neg hP, ih (passoClassifica st l)]
      have hfst : (passoClassifica st l).1 = st.1 := by
        unfold passoClassifica
        by_cases hcont : contem "antecip" (pyLower l) = true
        · rw [if_pos hcont]
          cases htk : extrair_percentuais l with
          | nil => rfl
          | cons t ts =>
            exfalso
            apply hP
            unfold linhaAntecip
            rw [hcont, htk]
            simp
        · rw [if_neg hcont]
      rw [hfst]

/-- C2: for every list of OCR lines, the surcharge rate after classification
is the first percentage token of the last line containing `"antecip"`
(case-insensitively) that yields at least one percentage token
(last-match-wins); in particular two surcharge lines carrying 3,5 and 4,0 in
that order leave the rate 4.0. -/
theorem C2_ultima_taxa_antecipacao_vence :
    (∀ lines : List String, (classifica lines).1 = ultimaTaxaAntecipacao lines) ∧
      (classifica ["Antecipação: 3,5%", "DEBITO 1,50", "Taxa de antecipacao 4,0%"]).1 = some 4 := by
  constructor
  · intro lines
    unfold classifica ultimaTaxaAntecipacao
    rw [foldl_passoClassifica_fst lines (none, [])]
    cases (lines.filter linhaAntecip).getLast? with
    | none => rfl
    | some l => rfl
  · exact of_decide_eq_true (by with_unfolding_all rfl)

/-! ## Claim C3: channel mapping and installment ranges -/

/-- Spec-side channel rule table: ordered (predicate, result) pairs over the
lower-cased channel text, first match wins. -/
def regrasCanal : List ((String → Bool) × String) :=
  [(fun t => contem "deb" t, "DEBITO"),
   (fun t => contem "avista" t || contem "a vista" t, "CREDITO_AVISTA"),
   (fun t => contem "2" t && contem "6" t, "CREDITO_2A6X"),
   (fun t => contem "7" t && contem "12" t, "CREDITO_7A12X"),
   (fun t => contem "13" t || contem "21" t, "CREDITO_13A21X"),
   (fun t => contem "credito" t || contem "crédito" t, "CREDITO_AVISTA")]

/-- Spec-side channel mapping: result of the first matching rule, or the
unmapped marker `""`. -/
def aplicaRegras (texto : String) : String :=
  match regrasCanal.find? (fun pr => pr.1 (pyLower texto)) with
  | some pr => pr.2
  | none => ""

theorem find?_cons_ite {α : Type} (p : α → Bool) (x : α) (xs : List α) :
    (x :: xs).find? p = if p x = true then some x else xs.find? p := by
  cases hp : p x
  · simp [List.find?_cons_of_neg, hp]
  · simp [List.find?_cons_of_pos, hp]

theorem mem_foldr_registros (row : LinhaExtraida) (canal : String) (pde pate : ℕ)
    (prazo : String) (taxa : Option ℚ) :
    ∀ (bs : List String) (r : Registro),
      r ∈ bs.foldr
        (fun bandeira acc =>
          match celulaParaTaxa (obterCelula row bandeira) with
          | none => acc
          | some q =>
            { canal := canal, bandeira := bandeira, parcela_de := pde, parcela_ate := pate,
              mdr := round4 q, prazo_recebimento := prazo, taxa_antecipacao := taxa } :: acc)
        [] →
      ∃ b q, celulaParaTaxa (obterCelula row b) = some q ∧ r =
        { canal := canal, bandeira := b, parcela_de := pde, parcela_ate := pate,
          mdr := round4 q, prazo_recebimento := prazo, taxa_antecipacao := taxa } := by
  intro bs
  induction bs with
  | nil => intro r h; simp at h
  | cons b bs ih =>
    intro r h
    simp only [List.foldr_cons] at h
    cases hcel : celulaParaTaxa (obterCelula row b) with
    | none => rw [hcel] at h; exact ih r h
    | some q =>
      rw [hcel] at h
      rcases List.mem_cons.mp h with h1 | h2
      · exact ⟨b, q, hcel, h1⟩
      · exact ih r h2

theorem mem_registrosDaLinha {taxa : Option ℚ} {row : LinhaExtraida} {r : Registro}
    (h : r ∈ registrosDaLinha taxa row) :
    r.canal = normalizar_modalidade row.modalidade ∧ r.canal ≠ "" ∧
      (r.parcela_de, r.parcela_ate) = faixa_parcelas r.canal := by
  unfold registrosDaLinha at h
  by_cases hc : normalizar_modalidade row.modalidade = ""
  · rw [if_pos hc] at h; simp at h
  · rw [if_neg hc] at h
    obtain ⟨b, q, -, rfl⟩ := mem_foldr_registros row _ _ _ _ _ BANDEIRAS_PADRAO r h
    refine ⟨rfl, hc, ?_⟩
    simp

theorem mem_normalizar_tabela {df : List LinhaExtraida} {taxa : Option ℚ} {r : Registro} :
    r ∈ normalizar_tabela df taxa → ∃ row ∈ df, r ∈ registrosDaLinha taxa row := by
  induction df with
  | nil => intro h; simp [normalizar_tabela] at h
  | cons row df ih =>
    intro h
    simp only [normalizar_tabela, List.foldr_cons] at h
    rcases List.mem_append.mp h with h1 | h2
    · exact ⟨row, List.mem_cons_self _ _, h1⟩
    · obtain ⟨row', hrow', hr⟩ := ih h2
      exact ⟨row', List.mem_cons_of_mem _ hrow', hr⟩

/-- C3: the channel mapping implements the ordered first-match rule table
(case-insensitive substring tests, unmapped rows dropped entirely), and
every emitted record carries its channel's fixed installment range:
DEBITO = (1,1), CREDITO_AVISTA = (1,1), CREDITO_2A6X = (2,6),
CREDITO_7A12X = (7,12), CREDITO_13A21X = (13,21). -/
theorem C3_mapeamento_canal :
    (∀ texto, normalizar_modalidade texto = aplicaRegras texto) ∧
      (faixa_parcelas "DEBITO" = (1, 1) ∧ faixa_parcelas "CREDITO_AVISTA" = (1, 1) ∧
        faixa_parcelas "CREDITO_2A6X" = (2, 6) ∧ faixa_parcelas "CREDITO_7A12X" = (7, 12) ∧
        faixa_parcelas "CREDITO_13A21X" = (13, 21)) ∧
      (∀ (taxa : Option ℚ) (row : LinhaExtraida),
        normalizar_modalidade row.modalidade = "" → registrosDaLinha taxa row = []) ∧
      (∀ (df : List LinhaExtraida) (taxa : Option ℚ) (r : Registro),
        r ∈ normalizar_tabela df taxa →
          r.canal ≠ "" ∧ (r.parcela_de, r.parcela_ate) = faixa_parcelas r.canal) := by
  refine ⟨?_, ⟨rfl, rfl, rfl, rfl, rfl⟩, ?_, ?_⟩
  · intro texto
    simp only [normalizar_modalidade, aplicaRegras, regrasCanal, find?_cons_ite,
      List.find?_nil, Bool.or_eq_true, Bool.and_eq_true]
    split_ifs <;> rfl
  · intro taxa row h
    unfold registrosDaLinha
    rw [if_pos h]
  · intro df taxa r h
    obtain ⟨row, _, hr⟩ := mem_normalizar_tabela h
    exact (mem_registrosDaLinha hr).2

/-- A wide row whose channel text maps to DEBITO, used to instantiate C3. -/
def linhaDebitoC3 : LinhaExtraida :=
  { modalidade := "DEBITO", prazo_recebimento := "D+1", celulas := [("VISA", Celula.num (3/2))] }

/-- A wide row whose channel text maps to no channel. -/
def linhaSemCanal : LinhaExtraida :=
  { modalidade := "RUIDO", prazo_recebimento := "", celulas := [] }

/-- The single record normalizing `linhaDebitoC3` produces. -/
def regDebitoC3 : Registro :=
  { canal := "DEBITO", bandeira := "VISA", parcela_de := 1, parcela_ate := 1,
    mdr := 3/2, prazo_recebimento := "D+1", taxa_antecipacao := none }

/-- C3, witness: the record-level conjuncts applied at concrete inputs. -/
theorem C3_testemunha :
    registrosDaLinha none linhaSemCanal = [] ∧
      (regDebitoC3.canal ≠ "" ∧
        (regDebitoC3.parcela_de, regDebitoC3.parcela_ate) = faixa_parcelas regDebitoC3.canal) :=
  ⟨C3_mapeamento_canal.2.2.1 none linhaSemCanal (of_decide_eq_true (by with_unfolding_all rfl)),
   C3_mapeamento_canal.2.2.2 [linhaDebitoC3] none regDebitoC3
     (of_decide_eq_true (by with_unfolding_all rfl))⟩

/-! ## Claim C4: header detection -/

/-- The known brands occurring in a line, listed in the order of the fixed
reference list `BANDEIRAS_PADRAO`, not in their order of appearance. -/
def marcasNaLinha (line : String) : List String :=
  BANDEIRAS_PADRAO.filter (fun b => contem (pyLower b) (pyLower line))

/-- Spec-side header detection: the brand set of the first line in which at
least 3 known brands occur, or `[]` when no line qualifies. -/
def headerSpec (linhas : List String) : List String :=
  match linhas.find? (fun line => decide ((marcasNaLinha line).length ≥ 3)) with
  | some line => marcasNaLinha line
  | none => []

/-- C4: the header detector returns the reference-ordered brand set of the
first line with at least 3 known-brand matches; when no line qualifies the
extraction falls back to the default 5-brand list; and a line containing
"VISA MASTERCARD ELO" yields exactly ["VISA", "MASTERCARD", "ELO"]. -/
theorem C4_deteccao_header :
    (∀ linhas, detectar_header linhas = headerSpec linhas) ∧
      (∀ ocrLinhas, detectar_header (classifica (prepara_linhas ocrLinhas)).2 = [] →
        (ler_imagem_e_extrair_tabela ocrLinhas).bandeiras = BANDEIRAS_PADRAO) ∧
      detectar_header ["VISA MASTERCARD ELO"] = ["VISA", "MASTERCARD", "ELO"] ∧
      (ler_imagem_e_extrair_tabela ["VISA MASTERCARD ELO", "DEBITO 1,50"]).bandeiras =
        ["VISA", "MASTERCARD", "ELO"] := by
  refine ⟨?_, ?_, ?_, ?_⟩
  · intro linhas
    induction linhas with
    | nil => rfl
    | cons line resto ih =>
      simp only [detectar_header, headerSpec, find?_cons_ite, marcasNaLinha, decide_eq_true_eq]
      by_cases hp :
          (BANDEIRAS_PADRAO.filter (fun b => contem (pyLower b) (pyLower line))).length ≥ 3
      · rw [if_pos hp, if_pos hp]
      · rw [if_neg hp, if_neg hp]
        simpa only [headerSpec, marcasNaLinha] using ih
  · intro ocrLinhas h
    simp [ler_imagem_e_extrair_tabela, h]
  · exact of_decide_eq_true (by with_unfolding_all rfl)
  · exact of_decide_eq_true (by with_unfolding_all rfl)

/-- C4, witness: an input with no header line falls back to the default
brand list. -/
theorem C4_testemunha :
    (ler_imagem_e_extrair_tabela ["DEBITO 1,50"]).bandeiras = BANDEIRAS_PADRAO :=
  C4_deteccao_header.2.1 ["DEBITO 1,50"] (of_decide_eq_true (by with_unfolding_all rfl))

/-! ## Claim C5: commit rejection leaves the catalog untouched -/

/-- A pre-existing catalog row used to instantiate C5. -/
def linhaBaseC5 : LinhaBase :=
  { plan_name := "PLANO_X", canal := "DEBITO", bandeira := "VISA", parcela_de := 1,
    parcela_ate := 1, mdr := 3/2, prazo_recebimento := "D+1", taxa_antecipacao := none,
    hash_plano := "abc123", data_criacao := "2024-01-01T00:00:00" }

/-- A normalized record used to instantiate C5. -/
def registroC5 : Registro :=
  { canal := "DEBITO", bandeira := "MASTERCARD", parcela_de := 1, parcela_ate := 1,
    mdr := 21/10, prazo_recebimento := "D+1", taxa_antecipacao := none }

/-- C5: a commit request with an empty plan name or an empty normalized
record sequence is rejected with an error message before any catalog
mutation, and the persisted catalog is exactly the one read — no partial
append, no rewrite. -/
theorem C5_rejeicao_commit (base : List LinhaBase) (novo_nome : String)
    (tabela : List Registro) (hash_plano data_criacao : String)
    (h : novo_nome = "" ∨ tabela = []) :
    (trataSalvar base novo_nome tabela hash_plano data_criacao).1 = base ∧
      (trataSalvar base novo_nome tabela hash_plano data_criacao).2.isSome = true := by
  unfold trataSalvar
  rcases h with rfl | rfl
  · simp
  · by_cases hn : novo_nome = ""
    · simp [hn]
    · simp [hn]

/-- C5, witness: both rejection conditions exercised on a one-row catalog. -/
theorem C5_testemunha :
    ((trataSalvar [linhaBaseC5] "" [registroC5] "h" "t").1 = [linhaBaseC5] ∧
        (trataSalvar [linhaBaseC5] "" [registroC5] "h" "t").2.isSome = true) ∧
      ((trataSalvar [linhaBaseC5] "PLANO_NOVO" [] "h" "t").1 = [linhaBaseC5] ∧
        (trataSalvar [linhaBaseC5] "PLANO_NOVO" [] "h" "t").2.isSome = true) :=
  ⟨C5_rejeicao_commit [linhaBaseC5] "" [registroC5] "h" "t" (Or.inl rfl),
   C5_rejeicao_commit [linhaBaseC5] "PLANO_NOVO" [] "h" "t" (Or.inr rfl)⟩

/-! ## Claim C6: rates are present; non-negativity fails for edited cells -/

theorem levaDigitos_fst_digits : ∀ cs : List Char, ∀ c ∈ (levaDigitos cs).1, c.isDigit = true := by
  intro cs
  induction cs with
  | nil => intro c hc; simp [levaDigitos] at hc
  | cons x xs ih =>
    intro c hc
    simp only [levaDigitos] at hc
    by_cases hx : x.isDigit = true
    · rw [if_pos hx] at hc
      rcases List.mem_cons.mp hc with rfl | hc2
      · exact hx
      · exact ih c hc2
    · rw [if_neg hx] at hc
      simp at hc

theorem tokensNumericos_chars :
    ∀ (cs : List Char) (t : String), t ∈ tokensNumericos cs →
      ∀ c ∈ t.toList, c.isDigit = true ∨ c = '.' ∨ c = ',' := by
  intro cs
  induction cs using tokensNumericos.induct with
  | case1 => intro t ht; simp [tokensNumericos] at ht
  | case2 c resto hdig sep r2 h2 hsep ih =>
    intro t ht ch hch
    rw [tokensNumericos, if_pos hdig, h2] at ht
    dsimp only at ht
    rw [if_pos hsep] at ht
    rcases List.mem_cons.mp ht with rfl | ht2
    · rcases List.mem_cons.mp hch with rfl | hch2
      · exact Or.inl hdig
      · rcases List.mem_append.mp hch2 with hd | hs
        · exact Or.inl (levaDigitos_fst_digits resto ch hd)
        · rcases List.mem_cons.mp hs with rfl | hd2
          · rcases hsep with rfl | rfl
            · exact Or.inr (Or.inl rfl)
            · exact Or.inr (Or.inr rfl)
          · exact Or.inl (levaDigitos_fst_digits r2 ch hd2)
    · exact ih t ht2 ch hch
  | case3 c resto hdig sep r2 h2 hsep ih =>
    intro t ht ch hch
    rw [tokensNumericos, if_pos hdig, h2] at ht
    dsimp only at ht
    rw [if_neg hsep] at ht
    rcases List.mem_cons.mp ht with rfl | ht2
    · rcases List.mem_cons.mp hch with rfl | hch2
      · exact Or.inl hdig
      · exact Or.inl (levaDigitos_fst_digits resto ch hch2)
    · exact ih t ht2 ch hch
  | case4 c resto hdig h2 =>
    intro t ht ch hch
    rw [tokensNumericos, if_pos hdig, h2] at ht
    dsimp only at ht
    rcases List.mem_cons.mp ht with rfl | ht2
    · rcases List.mem_cons.mp hch with rfl | hch2
      · exact Or.inl hdig
      · exact Or.inl (levaDigitos_fst_digits resto ch hch2)
    · simp at ht2
  | case5 c resto hdig ih =>
    intro t ht ch hch
    rw [tokensNumericos, if_neg hdig] at ht
    exact ih t ht ch hch

theorem parseNaoAssinado_nonneg {cs : List Char} {q : ℚ} (h : parseNaoAssinado cs = some q) :
    0 ≤ q := by
  unfold parseNaoAssinado at h
  split at h
  · split at h
    · cases h
    · rw [Option.some.injEq] at h
      rw [← h]
      positivity
  · split at h
    · split at h
      · cases h
      · split at h
        · cases h
        · rw [Option.some.injEq] at h
          rw [← h]
          positivity
    · cases h

theorem mem_tiraEspacosBordas {c : Char} {cs : List Char} (h : c ∈ tiraEspacosBordas cs) :
    c ∈ cs := by
  unfold tiraEspacosBordas at h
  rw [List.mem_reverse] at h
  have h2 := (List.dropWhile_sublist _).mem h
  rw [List.mem_reverse] at h2
  exact (List.dropWhile_sublist _).mem h2

theorem parseDecimal_nonneg {s : String} {q : ℚ} (h : parseDecimal s = some q)
    (hs : '-' ∉ s.toList) : 0 ≤ q := by
  unfold parseDecimal at h
  split at h
  · exact parseNaoAssinado_nonneg h
  · rename_i heq
    exact absurd (mem_tiraEspacosBordas (heq ▸ List.mem_cons_self _ _)) hs
  · exact parseNaoAssinado_nonneg h

theorem extrair_percentuais_nonneg (line : String) : ∀ q ∈ extrair_percentuais line, 0 ≤ q := by
  intro q hq
  unfold extrair_percentuais at hq
  obtain ⟨t, ht, hparse⟩ := List.mem_filterMap.mp hq
  refine parseDecimal_nonneg hparse ?_
  intro hmem
  unfold trocaVirgula at hmem
  rw [show (String.mk (t.toList.map (fun c => if c = ',' then '.' else c))).toList
      = t.toList.map (fun c => if c = ',' then '.' else c) from rfl] at hmem
  obtain ⟨c0, hc0, hc0eq⟩ := List.mem_map.mp hmem
  rcases tokensNumericos_chars line.toList t ht c0 hc0 with hd | rfl | rfl
  · by_cases hv : c0 = ','
    · rw [if_pos hv] at hc0eq; cases hc0eq
    · rw [if_neg hv] at hc0eq
      rw [hc0eq] at hd
      cases hd
  · cases hc0eq
  · rw [if_pos rfl] at hc0eq
    cases hc0eq

theorem arredondaMeioPar_nonneg {x : ℚ} (h : 0 ≤ x) : 0 ≤ arredondaMeioPar x := by
  simp only [arredondaMeioPar]
  have hn : (0 : ℤ) ≤ ⌊x⌋ := Int.floor_nonneg.mpr h
  split_ifs <;> omega

theorem round4_nonneg {q : ℚ} (h : 0 ≤ q) : 0 ≤ round4 q := by
  unfold round4
  have h1 : 0 ≤ arredondaMeioPar (q * 10000) := arredondaMeioPar_nonneg (by positivity)
  exact div_nonneg (by exact_mod_cast h1) (by norm_num)

theorem registrosDaLinha_mdr {taxa : Option ℚ} {row : LinhaExtraida} {r : Registro}
    (h : r ∈ registrosDaLinha taxa row) :
    ∃ b q, celulaParaTaxa (obterCelula row b) = some q ∧ r.mdr = round4 q := by
  unfold registrosDaLinha at h
  by_cases hc : normalizar_modalidade row.modalidade = ""
  · rw [if_pos hc] at h; simp at h
  · rw [if_neg hc] at h
    obtain ⟨b, q, hcel, rfl⟩ := mem_foldr_registros row _ _ _ _ _ BANDEIRAS_PADRAO r h
    exact ⟨b, q, hcel, rfl⟩

theorem celula_extracao_mem {bandeiras : List String} {line : String} {b : String} {q : ℚ}
    (h : celulaParaTaxa (obterCelula (montarLinha bandeiras line) b) = some q) :
    q ∈ extrair_percentuais line := by
  unfold obterCelula at h
  cases hf : (montarLinha bandeiras line).celulas.find? (fun kv => kv.1 = b) with
  | none => rw [hf] at h; cases h
  | some kv =>
    rw [hf] at h
    have hkv := List.mem_of_find?_eq_some hf
    obtain ⟨k1, k2⟩ := kv
    unfold montarLinha at hkv
    dsimp only at hkv
    have h2 := (List.of_mem_zip hkv).2
    rcases List.mem_append.mp h2 with hnum | hnan
    · obtain ⟨q', hq', hqeq⟩ := List.mem_map.mp hnum
      rw [← hqeq] at h
      rw [show celulaParaTaxa (Celula.num q') = some q' from rfl, Option.some.injEq] at h
      rw [← h]
      exact hq'
    · rw [List.eq_of_mem_replicate hnan] at h
      cases h

/-- A wide row carrying a human-edited negative rate cell for VISA. -/
def linhaEditadaNegativa : LinhaExtraida :=
  { modalidade := "DEBITO", prazo_recebimento := "D+1",
    celulas := [("VISA", Celula.txt "-1,5")] }

/-- C6, counterexample: a human-edited cell `"-1,5"` parses successfully and
is stored as the negative rate −1.5, so a NormalizedRecord of an edited
table can carry a negative rate, contradicting the claim's non-negativity
for arbitrary (including human-edited) tables. -/
theorem C6_contraexemplo :
    (normalizar_tabela [linhaEditadaNegativa] none).map (fun r => r.mdr) = [-(3/2)] ∧
      ((-(3/2) : ℚ) < 0) :=
  ⟨of_decide_eq_true (by with_unfolding_all rfl),
   of_decide_eq_true (by with_unfolding_all rfl)⟩

/-- C6, amended: every record the Normalizer emits has a present, numeric
rate — the rounded value of a cell whose conversion succeeded; absent,
empty or unparsable cells yield no record. The rate is non-negative
whenever every convertible cell of the input table is non-negative, and in
particular for every table produced by the extractor; a human edit can
however inject a negative rate. -/
theorem C6_taxa_presente_nao_negativa :
    (∀ (df : List LinhaExtraida) (taxa : Option ℚ) (r : Registro),
      r ∈ normalizar_tabela df taxa →
        ∃ row ∈ df, ∃ b q, celulaParaTaxa (obterCelula row b) = some q ∧ r.mdr = round4 q) ∧
      (∀ (df : List LinhaExtraida) (taxa : Option ℚ),
        (∀ row ∈ df, ∀ (b : String) (q : ℚ),
          celulaParaTaxa (obterCelula row b) = some q → 0 ≤ q) →
        ∀ r ∈ normalizar_tabela df taxa, 0 ≤ r.mdr) ∧
      (∀ (ocrLinhas : List String) (taxa : Option ℚ) (r : Registro),
        r ∈ normalizar_tabela (ler_imagem_e_extrair_tabela ocrLinhas).linhas taxa →
          0 ≤ r.mdr) := by
  refine ⟨?_, ?_, ?_⟩
  · intro df taxa r h
    obtain ⟨row, hrow, hr⟩ := mem_normalizar_tabela h
    obtain ⟨b, q, hcel, hmdr⟩ := registrosDaLinha_mdr hr
    exact ⟨row, hrow, b, q, hcel, hmdr⟩
  · intro df taxa hcells r h
    obtain ⟨row, hrow, hr⟩ := mem_normalizar_tabela h
    obtain ⟨b, q, hcel, hmdr⟩ := registrosDaLinha_mdr hr
    rw [hmdr]
    exact round4_nonneg (hcells row hrow b q hcel)
  · intro ocrLinhas taxa r h
    obtain ⟨row, hrow, hr⟩ := mem_normalizar_tabela h
    obtain ⟨b, q, hcel, hmdr⟩ := registrosDaLinha_mdr hr
    simp only [ler_imagem_e_extrair_tabela] at hrow
    obtain ⟨line, -, hline⟩ := List.mem_map.mp hrow
    rw [← hline] at hcel
    rw [hmdr]
    exact round4_nonneg (extrair_percentuais_nonneg line q (celula_extracao_mem hcel))

/-- C6, witness: the extractor-path conjunct applied to a concrete one-line
table, and the conditional conjunct on the same normalized output. -/
theorem C6_testemunha :
    (0 : ℚ) ≤ (Registro.mk "DEBITO" "VISA" 1 1 (3/2) "" none).mdr :=
  C6_taxa_presente_nao_negativa.2.2 ["DEBITO 1,50"] none
    (Registro.mk "DEBITO" "VISA" 1 1 (3/2) "" none)
    (of_decide_eq_true (by with_unfolding_all rfl))

/-! ## Claim C7: empty fingerprint and empty catalog yield no matches -/

theorem sha256hex_length (s : String) : (sha256hex s).length = 64 := by
  unfold sha256hex
  dsimp only
  rw [show ∀ l : List Char, (String.mk l).length = l.length from fun l => rfl]
  simp [hex8, List.length_append]

/-- A catalog row with a non-empty fingerprint, used to instantiate C7. -/
def linhaBaseC7 : LinhaBase :=
  { plan_name := "PLANO_Y", canal := "DEBITO", bandeira := "VISA", parcela_de := 1,
    parcela_ate := 1, mdr := 3/2, prazo_recebimento := "D+1", taxa_antecipacao := none,
    hash_plano := "h1", data_criacao := "2024-01-01T00:00:00" }

/-- A normalized record used to instantiate C7. -/
def registroC7 : Registro :=
  { canal := "DEBITO", bandeira := "VISA", parcela_de := 1, parcela_ate := 1,
    mdr := 3/2, prazo_recebimento := "D+1", taxa_antecipacao := none }

/-- C7: the empty catalog matches nothing; the empty-string fingerprint —
the defined sentinel produced exactly by an empty record sequence — matches
nothing in a catalog whose rows carry non-empty fingerprints (every
committed row does: real fingerprints are 64 hex characters long, never
empty). -/
theorem C7_sentinela_vazia :
    (∀ hash_plano : String, comparar_com_base hash_plano [] = []) ∧
      (∀ base : List LinhaBase, (∀ r ∈ base, r.hash_plano ≠ "") →
        comparar_com_base "" base = []) ∧
      (∀ taxa : Option ℚ, gerar_hash_plano [] taxa = "") ∧
      (∀ (registros : List Registro) (taxa : Option ℚ), registros ≠ [] →
        gerar_hash_plano registros taxa ≠ "") := by
  refine ⟨fun _ => rfl, ?_, fun _ => rfl, ?_⟩
  · intro base hne
    unfold comparar_com_base
    by_cases hb : base.isEmpty
    · rw [if_pos hb]
    · rw [if_neg hb]
      rw [List.filter_eq_nil_iff]
      intro nome hnome
      simp only [decide_eq_true_eq]
      intro hmap
      obtain ⟨r, hfind, hhash⟩ := Option.map_eq_some'.mp hmap
      exact hne r (List.mem_of_find?_eq_some hfind) hhash
  · intro registros taxa hne
    cases registros with
    | nil => exact absurd rfl hne
    | cons r rs =>
      unfold gerar_hash_plano
      rw [if_neg (by simp)]
      intro heq
      have hlen := congrArg String.length heq
      rw [sha256hex_length] at hlen
      cases hlen

/-- C7, witness: a one-row catalog with fingerprint "h1" yields no match for
the empty fingerprint, and a one-record sequence has a non-empty
fingerprint. -/
theorem C7_testemunha :
    comparar_com_base "" [linhaBaseC7] = [] ∧ gerar_hash_plano [registroC7] none ≠ "" :=
  ⟨C7_sentinela_vazia.2.1 [linhaBaseC7] (of_decide_eq_true (by with_unfolding_all rfl)),
   C7_sentinela_vazia.2.2.2 [registroC7] none (by simp)⟩

/-! ## Claim C8: concrete normalization round-trip -/

/-- The round-trip row of the spec: channel "DEBITO", rates
[1.50, 2.10, null, null, null] aligned to the default brand set, term
"D+1". -/
def linhaC8 : LinhaExtraida :=
  { modalidade := "DEBITO", prazo_recebimento := "D+1",
    celulas := [("VISA", Celula.num (3/2)), ("MASTERCARD", Celula.num (21/10)),
      ("ELO", Celula.nan), ("AMEX", Celula.nan), ("HIPERCARD", Celula.nan)] }

/-- C8: normalizing the round-trip table yields exactly two records — VISA
with rate 1.5000 and MASTERCARD with rate 2.1000 — both with channel
DEBITO, installment range (1, 1) and settlement term "D+1". -/
theorem C8_ida_e_volta :
    normalizar_tabela [linhaC8] none =
      [{ canal := "DEBITO", bandeira := "VISA", parcela_de := 1, parcela_ate := 1,
         mdr := 3/2, prazo_recebimento := "D+1", taxa_antecipacao := none },
       { canal := "DEBITO", bandeira := "MASTERCARD", parcela_de := 1, parcela_ate := 1,
         mdr := 21/10, prazo_recebimento := "D+1", taxa_antecipacao := none }] ∧
      fmt4 (3/2) = "1.5000" ∧ fmt4 (21/10) = "2.1000" :=
  ⟨of_decide_eq_true (by with_unfolding_all rfl),
   of_decide_eq_true (by with_unfolding_all rfl),
   of_decide_eq_true (by with_unfolding_all rfl)⟩

/-! ## Claim C9: any line containing "x" — including an AMEX brand header —
becomes a data row -/

/-- C9: the channel-likeness test accepts every line whose lower-cased text
contains "x", and every such table-line candidate — including a brand
header listing AMEX and no channel keyword — produces an ExtractedRow whose
channel text is the line itself. -/
theorem C9_linha_com_x_vira_registro :
    (∀ texto : String, contem "x" (pyLower texto) = true → parece_modalidade texto = true) ∧
      (∀ (ocrLinhas : List String) (l : String),
        l ∈ (classifica (prepara_linhas ocrLinhas)).2 → contem "x" (pyLower l) = true →
          l ∈ (ler_imagem_e_extrair_tabela ocrLinhas).linhas.map (fun row => row.modalidade)) ∧
      "VISA MASTERCARD ELO AMEX HIPERCARD" ∈
        (ler_imagem_e_extrair_tabela
          ["VISA MASTERCARD ELO AMEX HIPERCARD", "DEBITO 1,50"]).linhas.map
          (fun row => row.modalidade) := by
  have hx : ∀ texto : String, contem "x" (pyLower texto) = true → parece_modalidade texto = true := by
    intro texto h
    simp [parece_modalidade, h]
  refine ⟨hx, ?_, ?_⟩
  · intro ocrLinhas l hl hxl
    simp only [ler_imagem_e_extrair_tabela]
    refine List.mem_map.mpr ⟨montarLinha _ l, List.mem_map.mpr ⟨l, ?_, rfl⟩, rfl⟩
    exact List.mem_filter.mpr ⟨hl, hx l hxl⟩
  · exact of_decide_eq_true (by with_unfolding_all rfl)

/-- C9, witness: a line that is only a brand header containing AMEX becomes
a row. -/
theorem C9_testemunha :
    "TAXAS AMEX" ∈
      (ler_imagem_e_extrair_tabela ["TAXAS AMEX"]).linhas.map (fun row => row.modalidade) :=
  C9_linha_com_x_vira_registro.2.1 ["TAXAS AMEX"] "TAXAS AMEX"
    (of_decide_eq_true (by with_unfolding_all rfl))
    (of_decide_eq_true (by with_unfolding_all rfl))

/-! ## Claim C10: every digit token occupies a brand position -/

/-- C10: a qualifying line's rate cells are exactly the positional alignment
of all its numeric tokens — computed on the unmodified line, so the
installment digits ("2" of "2x") and the settlement-term digits ("30" of
"D+30") enter the list in order of appearance and occupy brand positions,
displacing the true rates. -/
theorem C10_tokens_deslocam_taxas :
    (∀ (bandeiras : List String) (line : String),
      (montarLinha bandeiras line).celulas =
        bandeiras.zip ((extrair_percentuais line).map Celula.num ++
          List.replicate (bandeiras.length - (extrair_percentuais line).length) Celula.nan)) ∧
      extrair_percentuais "Credito 2x a 6x 1,50 D+30" = [2, 6, 3/2, 30] ∧
      extrair_prazo "Credito 2x a 6x 1,50 D+30" = "D+30" ∧
      (montarLinha BANDEIRAS_PADRAO "Credito 2x a 6x 1,50 D+30").celulas =
        [("VISA", Celula.num 2), ("MASTERCARD", Celula.num 6), ("ELO", Celula.num (3/2)),
         ("AMEX", Celula.num 30), ("HIPERCARD", Celula.nan)] :=
  ⟨fun _ _ => rfl,
   of_decide_eq_true (by with_unfolding_all rfl),
   of_decide_eq_true (by with_unfolding_all rfl),
   of_decide_eq_true (by with_unfolding_all rfl)⟩
